import Mathlib

/-!
Shallow embedding of the library-resolution core of the
`untitled-minecraft-launcher` repository, and proofs about it.

The embedded code is `src/src-tauri/src/storage.rs` (`get_file`) and
`src/src-tauri/src/prism_meta.rs` (`name_to_path`, `cur_arch`, `cur_os`,
`os_arch`, `download_library`).  Machine effects are made explicit:

* the filesystem is a map `String → Option (List Nat)` from a path to the
  byte content `tokio::fs::read` would return (`none` = unreadable);
* the HTTP client is a map `String → Option (Nat × List Nat)` from a URL to
  the `(status, body)` pair the transport would deliver (`none` = transport
  failure);
* `tokio::fs::write` and `create_dir_all` are assumed to succeed, and are
  recorded as effects (`wrote`, `dirCreated`) in the call's outcome;
* `std::env::consts::OS` / `::ARCH` are passed in as parameters;
* Rust `HashMap`s are association lists (only `get` is used by the code);
* SHA-1 and hex decoding are implemented concretely, byte for byte.
-/

set_option maxRecDepth 1000000

namespace UML

/-! ## Bytes, hex decoding and SHA-1 (the `sha1` and `hex` crates) -/

/-- 32-bit left rotation, as used by SHA-1. -/
def rotl (n x : Nat) : Nat := ((x <<< n) ||| (x >>> (32 - n))) % 4294967296

/-- The five 32-bit SHA-1 chaining variables. -/
structure Sha1State where
  a : Nat
  b : Nat
  c : Nat
  d : Nat
  e : Nat
deriving DecidableEq

/-- FIPS 180 padding: append 0x80, zero bytes up to 56 mod 64, then the
bit length as eight big-endian bytes. -/
def sha1pad (msg : List Nat) : List Nat :=
  let len := msg.length
  let bitLen := len * 8
  let z := (119 - (len % 64)) % 64
  msg ++ [128] ++ List.replicate z 0 ++
    (List.range 8).map (fun i => (bitLen >>> (8 * (7 - i))) % 256)

/-- Group bytes into big-endian 32-bit words. -/
def bytesToWords : List Nat → List Nat
  | b0 :: b1 :: b2 :: b3 :: rest =>
    (((b0 * 256 + b1) * 256 + b2) * 256 + b3) :: bytesToWords rest
  | _ => []

/-- Split a word list into `k` chunks of 16 words. -/
def wordChunks : Nat → List Nat → List (List Nat)
  | 0, _ => []
  | Nat.succ k, l => l.take 16 :: wordChunks k (l.drop 16)

/-- The 80-entry SHA-1 message schedule of one block. -/
def schedule (block : List Nat) : Array Nat :=
  (List.range 80).foldl (fun arr t =>
    if t < 16 then arr.push (block.getD t 0)
    else arr.push (rotl 1 ((arr.getD (t-3) 0) ^^^ (arr.getD (t-8) 0) ^^^
      (arr.getD (t-14) 0) ^^^ (arr.getD (t-16) 0)))) #[]

/-- The SHA-1 round function. -/
def sha1f (t b c d : Nat) : Nat :=
  if t < 20 then (b &&& c) ||| ((b ^^^ 4294967295) &&& d)
  else if t < 40 then b ^^^ c ^^^ d
  else if t < 60 then (b &&& c) ||| (b &&& d) ||| (c &&& d)
  else b ^^^ c ^^^ d

/-- The SHA-1 round constants. -/
def sha1k (t : Nat) : Nat :=
  if t < 20 then 1518500249 else if t < 40 then 1859775393
  else if t < 60 then 2400959708 else 3395469782

/-- SHA-1 compression of one 16-word block. -/
def sha1block (h : Sha1State) (block : List Nat) : Sha1State :=
  let w := schedule block
  let st := (List.range 80).foldl (fun (s : Sha1State) t =>
    let temp := (rotl 5 s.a + sha1f t s.b s.c s.d + s.e + sha1k t + w.getD t 0) % 4294967296
    ⟨temp, s.a, rotl 30 s.b, s.c, s.d⟩) h
  ⟨(h.a + st.a) % 4294967296, (h.b + st.b) % 4294967296, (h.c + st.c) % 4294967296,
    (h.d + st.d) % 4294967296, (h.e + st.e) % 4294967296⟩

/-- SHA-1 digest of a byte sequence, as the 20 digest bytes
(model of `sha1::Sha1::digest`). -/
def sha1Digest (msg : List Nat) : List Nat :=
  let ws := bytesToWords (sha1pad msg)
  let blocks := wordChunks (ws.length / 16) ws
  let h := blocks.foldl sha1block ⟨1732584193, 4023233417, 2562383102, 271733878, 3285377520⟩
  ([h.a, h.b, h.c, h.d, h.e].map
    (fun w => [(w >>> 24) % 256, (w >>> 16) % 256, (w >>> 8) % 256, w % 256])).flatten

/-- Value of one hex digit, upper or lower case (as accepted by `hex::decode`). -/
def hexDigitVal (c : Char) : Option Nat :=
  let n := c.toNat
  if 48 ≤ n ∧ n ≤ 57 then some (n - 48)
  else if 97 ≤ n ∧ n ≤ 102 then some (n - 87)
  else if 65 ≤ n ∧ n ≤ 70 then some (n - 55)
  else none

/-- Hex decoding of a character list: pairs of hex digits; odd length or a
non-hex character fails. -/
def hexDecodeList : List Char → Option (List Nat)
  | [] => some []
  | [_] => none
  | c1 :: c2 :: rest =>
    match hexDigitVal c1, hexDigitVal c2, hexDecodeList rest with
    | some a, some b, some tl => some ((a * 16 + b) :: tl)
    | _, _, _ => none

/-- Model of `hex::decode` on a string. -/
def hexDecode (s : String) : Option (List Nat) := hexDecodeList s.data

/-- Sanity check against the published SHA-1 test vector for "abc". -/
example :
    sha1Digest [97, 98, 99] =
      (hexDecode "a9993e364706816aba3e25717850c26c9cd0d89d").getD [] := by decide

/-- Sanity check against the published SHA-1 digest of the empty message. -/
example :
    sha1Digest [] = (hexDecode "da39a3ee5e6b4b0d3255bfef95601890afd80709").getD [] := by decide

/-! ## Coordinate parsing (`LIBRARY_NAME_REGEX` and `name_to_path`,
`prism_meta.rs` lines 186-221)

The Rust pattern is
`(?P<group>[^:@]+):(?P<name>[^:@]+):(?P<version>[^:@]+)(?::(?P<classifier>[^:@]+))?(?:@(?P<extension>[^:@]+))?`
searched with `Regex::captures`, i.e. UNANCHORED: the leftmost starting
position with a match wins, trailing input is ignored.  Because the
character class `[^:@]` excludes both delimiters, greedy matching needs no
backtracking: each field is the maximal run of non-delimiter characters. -/

/-- Characters allowed inside a coordinate field: anything but `:` and `@`. -/
def isNameChar (c : Char) : Bool := c != ':' && c != '@'

/-- The five named capture groups of `LIBRARY_NAME_REGEX`. -/
structure LibCaps where
  group : String
  name : String
  version : String
  classifier : Option String
  extension : Option String
deriving DecidableEq

/-- Consume one `[^:@]+` field: the maximal nonempty run of field
characters, failing on an empty run. -/
def takeField (l : List Char) : Option (List Char × List Char) :=
  let f := l.takeWhile isNameChar
  if f.isEmpty then none else some (f, l.dropWhile isNameChar)

/-- Consume one optional group `(?:d(?P<..>[^:@]+))?`: a literal delimiter
`d` followed by a nonempty field, or nothing. -/
def matchOpt (d : Char) : List Char → Option (List Char) × List Char
  | c :: t =>
    if c = d then
      match takeField t with
      | some (f, rest) => (some f, rest)
      | none => (none, c :: t)
    else (none, c :: t)
  | [] => (none, [])

/-- Attempt of `LIBRARY_NAME_REGEX` at one starting position: the three
mandatory `:`-separated fields, then the optional `:classifier` and
`@extension` groups; returns the captures and the unconsumed leftover. -/
def matchAt (l : List Char) : Option (LibCaps × List Char) :=
  match takeField l with
  | none => none
  | some (g, l1) =>
    match l1 with
    | [] => none
    | c1 :: l2 =>
      if c1 = ':' then
        match takeField l2 with
        | none => none
        | some (n, l3) =>
          match l3 with
          | [] => none
          | c2 :: l4 =>
            if c2 = ':' then
              match takeField l4 with
              | none => none
              | some (v, l5) =>
                let cl6 := matchOpt ':' l5
                let el7 := matchOpt '@' cl6.2
                some (⟨String.mk g, String.mk n, String.mk v,
                  cl6.1.map String.mk, el7.1.map String.mk⟩, el7.2)
            else none
      else none

/-- Model of `Regex::captures`: try every starting position left to right,
returning the captures of the first position where the pattern matches. -/
def findCaptures : List Char → Option LibCaps
  | [] => none
  | l@(_ :: t) =>
    match matchAt l with
    | some (caps, _) => some caps
    | none => findCaptures t

/-- Model of `str::replace(".", "/")` (the pattern is a single character,
so this is a character map). -/
def dotToSlash (s : String) : String :=
  String.mk (s.data.map fun c => if c = '.' then '/' else c)

/-- Model of `str::ends_with('/')`. -/
def endsWithSlash (s : String) : Bool :=
  match s.data.getLast? with
  | some c => c = '/'
  | none => false

/-- Model of `name_to_path` (`prism_meta.rs` lines 192-221): capture the
coordinate, default the extension to "jar", prefer the classifier override
over the captured classifier, and build `dir/name/version/filename`. -/
def name_to_path (name : String) (classifier : Option String) : Option String :=
  match findCaptures name.data with
  | none => none
  | some caps =>
    let ext := match caps.extension with
      | none => "jar"
      | some e => e
    let classifier := match classifier with
      | some c => some c
      | none => caps.classifier
    let filename := match classifier with
      | some m => caps.name ++ "-" ++ caps.version ++ "-" ++ m ++ "." ++ ext
      | none => caps.name ++ "-" ++ caps.version ++ "." ++ ext
    let dir := dotToSlash caps.group
    some (dir ++ "/" ++ caps.name ++ "/" ++ caps.version ++ "/" ++ filename)

/-- Spec test vector: `org.ow2.asm:asm:9.2` resolves to the standard
repository layout path. -/
example : name_to_path "org.ow2.asm:asm:9.2" none = some "org/ow2/asm/asm/9.2/asm-9.2.jar" := by
  decide

/-- Spec test vector: a coordinate carrying its own classifier. -/
example :
    name_to_path "org.lwjgl:lwjgl:3.3.1:natives-linux" none =
      some "org/lwjgl/lwjgl/3.3.1/lwjgl-3.3.1-natives-linux.jar" := by
  decide

/-! ## Platform oracle (`prism_meta.rs` lines 223-248)

`std::env::consts::ARCH` / `::OS` are compile-time environment facts; they
are passed in as the `arch` / `os` parameters. -/

/-- Model of `cur_arch`. -/
def cur_arch (arch : String) : String :=
  match arch with
  | "x86" => "x86"
  | "x86_64" => "x86_64"
  | "aarch64" => "arm64"
  | "arm" => "arm32"
  | _ => "unknown"

/-- Model of `cur_os`. -/
def cur_os (os : String) : String :=
  match os with
  | "linux" => "linux"
  | "macos" => "osx"
  | "windows" => "windows"
  | _ => "unknown"

/-- Model of `os_arch`: the OS tag alone for the two x86 variants,
otherwise `os-arch`. -/
def os_arch (os arch : String) : String :=
  if cur_arch arch = "x86" || cur_arch arch = "x86_64" then cur_os os
  else cur_os os ++ "-" ++ cur_arch arch

/-! ## Library descriptors (`prism_meta.rs` lines 79-143) -/

/-- Model of `LibraryHint` (the `MMC-hint` field). -/
inductive LibraryHint where
  | alwaysStale
deriving DecidableEq

/-- Model of `LibraryRuleAction`. -/
inductive LibraryRuleAction where
  | allow
  | disallow
deriving DecidableEq

/-- Model of `LibraryRuleOs`. -/
structure LibraryRuleOs where
  name : String
  version : Option String
deriving DecidableEq

/-- Model of `LibraryRule`. -/
structure LibraryRule where
  action : LibraryRuleAction
  os : Option LibraryRuleOs
deriving DecidableEq

/-- Model of `Download`. -/
structure Download where
  sha1 : String
  size : Nat
  url : String
deriving DecidableEq

/-- Model of `LibraryDownloads`; the `HashMap<String, Download>` of
classifiers is an association list, looked up with `assocGet`. -/
structure LibraryDownloads where
  artifact : Option Download
  classifiers : Option (List (String × Download))
deriving DecidableEq

/-- Model of `ExtractOptions` (carried but unused by `download_library`). -/
structure ExtractOptions where
  exclude : List String
deriving DecidableEq

/-- Model of `Library`. -/
structure Library where
  name : String
  url : Option String
  extract : Option ExtractOptions
  natives : Option (List (String × String))
  rules : Option (List LibraryRule)
  downloads : Option LibraryDownloads
  hint : Option LibraryHint
deriving DecidableEq

/-- Model of `HashMap::get` on an association list. -/
def assocGet {β : Type} : List (String × β) → String → Option β
  | [], _ => none
  | (k, v) :: t, key => if k = key then some v else assocGet t key

/-- The fixed default repository root (`LIBRARY_BASE_URL`). -/
def LIBRARY_BASE_URL : String := "https://libraries.minecraft.net/"

/-! ## The verified cache (`storage.rs`, `get_file`) -/

/-- The error cases of `get_file` and `download_library` (the code uses
`anyhow` strings; each distinct failure site is one constructor). -/
inductive LauncherError where
  | cantGetPath
  | cantGetClassifiers
  | cantGetNative
  | hexError
  | transportError
  | statusError (status : Nat)
deriving DecidableEq

deriving instance DecidableEq for Except

/-- Outcome of one `get_file` call: its return value plus the effects it
performed (whether an HTTP GET was issued, whether the `create_dir_all`
step ran, and what was written to the target path, if anything). -/
structure GetFileOutcome where
  result : Except LauncherError (List Nat)
  httpCalled : Bool
  dirCreated : Bool
  wrote : Option (List Nat)
deriving DecidableEq

/-- The fetch half of `get_file` (`storage.rs` lines 25-38): issue the GET;
a transport failure propagates; a non-200 status is a fatal error checked
before any filesystem effect; on 200 create the parent directories, write
the payload and return it. -/
def fetch_step (net : String → Option (Nat × List Nat)) (url : String) : GetFileOutcome :=
  match net url with
  | none => ⟨.error .transportError, true, false, none⟩
  | some (status, body) =>
    if status ≠ 200 then ⟨.error (.statusError status), true, false, none⟩
    else ⟨.ok body, true, true, some body⟩

/-- Model of `get_file` (`storage.rs` lines 6-39).  `fs` is the readable
content of each path; `net` is the response of each URL. -/
def get_file (fs : String → Option (List Nat)) (net : String → Option (Nat × List Nat))
    (path url : String) (redownload : Bool) (sha1 : Option String) : GetFileOutcome :=
  if redownload then fetch_step net url
  else
    match fs path with
    | none => fetch_step net url
    | some file =>
      match sha1 with
      | none => ⟨.ok file, false, false, none⟩
      | some s =>
        match hexDecode s with
        | none => ⟨.error .hexError, false, false, none⟩
        | some expected =>
          if expected = sha1Digest file then ⟨.ok file, false, false, none⟩
          else fetch_step net url

/-! ## The artifact locator (`prism_meta.rs`, `download_library`) -/

/-- One `get_file` call as issued by `download_library`: the joined local
path, the source URL, the force-redownload flag and the expected hash. -/
structure FetchCall where
  path : String
  url : String
  redownload : Bool
  sha1 : Option String
deriving DecidableEq

/-- Outcome of one `download_library` call: its return value (the list of
downloaded paths, or the first error), the `get_file` calls it issued in
order, and the writes those calls performed in order. -/
structure DlOutcome where
  result : Except LauncherError (List String)
  calls : List FetchCall
  writes : List (String × List Nat)
deriving DecidableEq

/-- The write effect of one `get_file` outcome, as a list of (path, bytes). -/
def writeList (path : String) (wrote : Option (List Nat)) : List (String × List Nat) :=
  match wrote with
  | none => []
  | some b => [(path, b)]

/-- The filesystem after one `get_file` call wrote (or not) at `path`. -/
def fsAfter (fs : String → Option (List Nat)) (path : String)
    (wrote : Option (List Nat)) : String → Option (List Nat) :=
  match wrote with
  | none => fs
  | some b => fun q => if q = path then some b else fs q

/-- Model of `PathBuf::push` of a relative path under the base directory. -/
def pathJoin (base rel : String) : String := base ++ "/" ++ rel

/-- The rule gate of `download_library` (`prism_meta.rs` lines 254-275):
absent rules mean always needed; present rules are folded in order over a
mutable `allowed` starting at `false`, where a rule with no `os` scope, or
whose scope name equals `os_arch()`, overwrites `allowed` with
`action == Allow`. -/
def is_needed (platform : String) (rules : Option (List LibraryRule)) : Bool :=
  match rules with
  | none => true
  | some rs =>
    rs.foldl (fun allowed rule =>
      match rule.os with
      | some os =>
        if os.name = platform then
          match rule.action with
          | .allow => true
          | .disallow => false
        else allowed
      | none =>
        match rule.action with
        | .allow => true
        | .disallow => false) false

/-- The natives half of the explicit-downloads branch (`prism_meta.rs`
lines 287-302): if the natives map has an entry for `os_arch()`, require
the classifiers map (else "Can't get classifiers"), look up the classifier
entry (else "Can't get native"), derive the path with the native classifier
as override, and fetch. -/
def natives_step (net : String → Option (Nat × List Nat)) (fs : String → Option (List Nat))
    (basePath libname platform : String)
    (natives : Option (List (String × String)))
    (classifiers : Option (List (String × Download)))
    (downloaded : List String) (calls : List FetchCall)
    (writes : List (String × List Nat)) : DlOutcome :=
  match natives with
  | none => ⟨.ok downloaded, calls, writes⟩
  | some ns =>
    match assocGet ns platform with
    | none => ⟨.ok downloaded, calls, writes⟩
    | some native =>
      match classifiers with
      | none => ⟨.error .cantGetClassifiers, calls, writes⟩
      | some cs =>
        match assocGet cs native with
        | none => ⟨.error .cantGetNative, calls, writes⟩
        | some artifact =>
          match name_to_path libname (some native) with
          | none => ⟨.error .cantGetPath, calls, writes⟩
          | some rel =>
            let path := pathJoin basePath rel
            let call : FetchCall := ⟨path, artifact.url, false, some artifact.sha1⟩
            let out := get_file fs net path artifact.url false (some artifact.sha1)
            match out.result with
            | .error e => ⟨.error e, calls ++ [call], writes ++ writeList path out.wrote⟩
            | .ok _ =>
              ⟨.ok (downloaded ++ [path]), calls ++ [call], writes ++ writeList path out.wrote⟩

/-- The explicit-downloads branch (`prism_meta.rs` lines 278-303): fetch
the primary artifact first if present (path derived with no override,
expected hash from the descriptor, never forced), then the natives step. -/
def strategy_a (net : String → Option (Nat × List Nat)) (fs : String → Option (List Nat))
    (basePath : String) (lib : Library) (platform : String)
    (downloads : LibraryDownloads) : DlOutcome :=
  match downloads.artifact with
  | none => natives_step net fs basePath lib.name platform lib.natives downloads.classifiers [] [] []
  | some artifact =>
    match name_to_path lib.name none with
    | none => ⟨.error .cantGetPath, [], []⟩
    | some rel =>
      let path := pathJoin basePath rel
      let call : FetchCall := ⟨path, artifact.url, false, some artifact.sha1⟩
      let out := get_file fs net path artifact.url false (some artifact.sha1)
      match out.result with
      | .error e => ⟨.error e, [call], writeList path out.wrote⟩
      | .ok _ =>
        natives_step net (fsAfter fs path out.wrote) basePath lib.name platform lib.natives
          downloads.classifiers [path] [call] (writeList path out.wrote)

/-- The single fetch of the derived-URL branch, at an already computed file
URL: derive the local path (no override), fetch with
`force_refresh = (hint == AlwaysStale)` and no expected hash. -/
def strategy_b_fetch (net : String → Option (Nat × List Nat)) (fs : String → Option (List Nat))
    (basePath : String) (lib : Library) (url : String) : DlOutcome :=
  match name_to_path lib.name none with
  | none => ⟨.error .cantGetPath, [], []⟩
  | some rel =>
    let path := pathJoin basePath rel
    let force := lib.hint == some LibraryHint.alwaysStale
    let call : FetchCall := ⟨path, url, force, none⟩
    let out := get_file fs net path url force none
    match out.result with
    | .error e => ⟨.error e, [call], writeList path out.wrote⟩
    | .ok _ => ⟨.ok [path], [call], writeList path out.wrote⟩

/-- The derived-URL branch (`prism_meta.rs` lines 304-322): base URL is the
descriptor override or `LIBRARY_BASE_URL`; a trailing slash appends the
derived relative path, otherwise the base URL is used verbatim. -/
def strategy_b (net : String → Option (Nat × List Nat)) (fs : String → Option (List Nat))
    (basePath : String) (lib : Library) : DlOutcome :=
  let url0 := match lib.url with
    | some u => u
    | none => LIBRARY_BASE_URL
  if endsWithSlash url0 then
    match name_to_path lib.name none with
    | none => ⟨.error .cantGetPath, [], []⟩
    | some rel => strategy_b_fetch net fs basePath lib (url0 ++ rel)
  else strategy_b_fetch net fs basePath lib url0

/-- The strategy dispatch of `download_library` (`prism_meta.rs` lines
277-324), after the rule gate. -/
def download_library_body (os arch : String) (net : String → Option (Nat × List Nat))
    (fs : String → Option (List Nat)) (basePath : String) (lib : Library) : DlOutcome :=
  match lib.downloads with
  | some downloads => strategy_a net fs basePath lib (os_arch os arch) downloads
  | none => strategy_b net fs basePath lib

/-- Model of `download_library` (`prism_meta.rs` lines 250-325). -/
def download_library (os arch : String) (net : String → Option (Nat × List Nat))
    (fs : String → Option (List Nat)) (basePath : String) (lib : Library) : DlOutcome :=
  if is_needed (os_arch os arch) lib.rules then download_library_body os arch net fs basePath lib
  else ⟨.ok [], [], []⟩

/-! ## Claim-side definitions

These restate parts of the specification in its own words, to be compared
against the definitions above, which are translated from the source. -/

/-- The needed decision as the spec words it: absent rule list means
needed; a present rule list is folded in order starting from `false`, a
rule whose scope is unset or whose scope name equals the platform
identifier overwrites the running decision with `action == Allow`, and
every other rule leaves it unchanged. -/
def neededPerClaim (platform : String) (rules : Option (List LibraryRule)) : Bool :=
  match rules with
  | none => true
  | some rs =>
    rs.foldl (fun dec rule =>
      match rule.os with
      | none => decide (rule.action = .allow)
      | some scope => if scope.name = platform then decide (rule.action = .allow) else dec) false

/-- The relative path as the spec words it: effective classifier is the
override if given else the coordinate's own; filename is
`artifact-version[-classifier].extension` with the extension defaulting to
"jar"; directory is the group with dots replaced by slashes followed by
`/artifact/version/`. -/
def relPathPerClaim (caps : LibCaps) (override : Option String) : String :=
  let cls := match override with
    | some c => some c
    | none => caps.classifier
  let ext := match caps.extension with
    | some e => e
    | none => "jar"
  let filename := match cls with
    | some c => caps.name ++ "-" ++ caps.version ++ "-" ++ c ++ "." ++ ext
    | none => caps.name ++ "-" ++ caps.version ++ "." ++ ext
  dotToSlash caps.group ++ "/" ++ caps.name ++ "/" ++ caps.version ++ "/" ++ filename

/-- A `get_file` call reaches the fetch step: the redownload is forced, or
the local file is unreadable, or an expected hash is present, decodes, and
differs from the local file's digest. -/
def reaches_fetch (fs : String → Option (List Nat)) (path : String)
    (redownload : Bool) (sha1 : Option String) : Prop :=
  redownload = true ∨ fs path = none ∨
    ∃ f s d, fs path = some f ∧ sha1 = some s ∧ hexDecode s = some d ∧ d ≠ sha1Digest f

/-! ## Claim C1: the rule gate of `download_library` -/

/-- C1: `download_library` computes the needed decision exactly as the
claim's fold describes it (absent rules = needed; present rules folded in
order from `false` with unset-or-matching scopes overwriting the decision
with `action == Allow`); when that decision is not-needed it returns
success with an empty path list, no `get_file` calls and no writes. -/
theorem c1_rule_gate (os arch : String) (net : String → Option (Nat × List Nat))
    (fs : String → Option (List Nat)) (basePath : String) (lib : Library) :
    download_library os arch net fs basePath lib =
      if neededPerClaim (os_arch os arch) lib.rules
      then download_library_body os arch net fs basePath lib
      else ⟨.ok [], [], []⟩ := by
  have h : ∀ platform rules, is_needed platform rules = neededPerClaim platform rules := by
    intro platform rules
    cases rules with
    | none => rfl
    | some rs =>
      simp only [is_needed, neededPerClaim]
      apply List.foldl_ext
      intro acc rule _
      cases rule.os with
      | none => cases rule.action <;> simp
      | some o => cases rule.action <;> by_cases hn : o.name = platform <;> simp [hn]
  unfold download_library
  rw [h]

/-! ## Claim C3: shape of the derived path -/

/-- C3: whenever the coordinate captures as `caps`, `name_to_path` returns
exactly the path built from the effective classifier (override first), the
`artifact-version[-classifier].extension` filename with "jar" as default
extension, and the dotted group as directory. -/
theorem c3_path_shape (s : String) (ov : Option String) (caps : LibCaps)
    (h : findCaptures s.data = some caps) :
    name_to_path s ov = some (relPathPerClaim caps ov) := by
  obtain ⟨g, n, v, cls, ext⟩ := caps
  unfold name_to_path relPathPerClaim
  rw [h]
  cases ov <;> cases cls <;> cases ext <;> rfl

/-- Witness for C3 at the spec's own test vector. -/
theorem c3_path_shape_witness :
    name_to_path "org.ow2.asm:asm:9.2" none =
      some (relPathPerClaim ⟨"org.ow2.asm", "asm", "9.2", none, none⟩ none) :=
  c3_path_shape "org.ow2.asm:asm:9.2" none ⟨"org.ow2.asm", "asm", "9.2", none, none⟩ (by decide)

/-! ## Claim C4: cache hit performs no effect -/

/-- C4: with `force_refresh` false, a readable local file, and either no
expected hash or a hash that decodes and equals the file's SHA-1 digest,
`get_file` returns the file's bytes, issues no HTTP GET, creates no
directory and writes nothing. -/
theorem c4_cache_hit (fs : String → Option (List Nat)) (net : String → Option (Nat × List Nat))
    (path url : String) (sha1 : Option String) (f : List Nat)
    (hfile : fs path = some f)
    (hsha : sha1 = none ∨ ∃ s d, sha1 = some s ∧ hexDecode s = some d ∧ d = sha1Digest f) :
    get_file fs net path url false sha1 = ⟨.ok f, false, false, none⟩ := by
  unfold get_file
  rcases hsha with h | ⟨s, d, hs, hd, hdig⟩ <;> simp [hfile, *]

/-- Witness for C4: an empty cached file whose digest matches the supplied
hash is returned with no fetch. -/
theorem c4_cache_hit_witness :
    get_file (fun _ => some []) (fun _ => none) "p" "u" false
      (some "da39a3ee5e6b4b0d3255bfef95601890afd80709") = ⟨.ok [], false, false, none⟩ :=
  c4_cache_hit (fun _ => some []) (fun _ => none) "p" "u"
    (some "da39a3ee5e6b4b0d3255bfef95601890afd80709") [] rfl
    (Or.inr ⟨"da39a3ee5e6b4b0d3255bfef95601890afd80709",
      [218, 57, 163, 238, 94, 107, 75, 13, 50, 85, 191, 239, 149, 96, 24, 144, 175, 216, 7, 9],
      rfl, by decide, by decide⟩)

/-! ## Claim C5: a non-200 status is fatal and touches nothing -/

/-- C5: when `get_file` reaches the fetch step and the response status is
not 200, it returns the fatal status error carrying the observed status,
and performs no directory creation and no write. -/
theorem c5_status_error (fs : String → Option (List Nat)) (net : String → Option (Nat × List Nat))
    (path url : String) (redownload : Bool) (sha1 : Option String) (status : Nat) (body : List Nat)
    (hr : reaches_fetch fs path redownload sha1)
    (hnet : net url = some (status, body)) (hst : status ≠ 200) :
    get_file fs net path url redownload sha1 =
      ⟨.error (.statusError status), true, false, none⟩ := by
  have hfetch : fetch_step net url = ⟨.error (.statusError status), true, false, none⟩ := by
    unfold fetch_step
    rw [hnet]
    simp [hst]
  unfold get_file
  rcases hr with h | h | ⟨f, s, d, hf, hs, hd, hne⟩ <;> simp [*]

/-- Witness for C5 at a 404 response. -/
theorem c5_status_error_witness :
    get_file (fun _ => none) (fun _ => some (404, [])) "p" "u" false none =
      ⟨.error (.statusError 404), true, false, none⟩ :=
  c5_status_error (fun _ => none) (fun _ => some (404, [])) "p" "u" false none 404 []
    (Or.inr (Or.inl rfl)) rfl (by decide)

/-! ## Claim C6: hash mismatch refetches, but the new digest is unchecked -/

/-- Counterexample to C6: the cached file `[0]` mismatches the all-zero
expected hash, so `get_file` fetches; the server answers 200 with `[2]`,
which is written and returned, yet the written file's SHA-1 digest does
NOT equal the expected hash — the code never verifies the fetched bytes. -/
theorem c6_unverified_counterexample :
    get_file (fun _ => some [0]) (fun _ => some (200, [2])) "p" "u" false
        (some "0000000000000000000000000000000000000000") =
      ⟨.ok [2], true, true, some [2]⟩ ∧
    hexDecode "0000000000000000000000000000000000000000" = some (List.replicate 20 0) ∧
    sha1Digest [2] ≠ List.replicate 20 0 :=
  ⟨by decide, by decide, by decide⟩

/-- C6 as amended: on a mismatching cached file and a 200 response,
`get_file` issues the GET, overwrites the file with exactly the fetched
payload and returns those bytes; the new file content is the payload
itself, whose digest the code does not compare with the expected hash. -/
theorem c6_refetch_overwrites (fs : String → Option (List Nat))
    (net : String → Option (Nat × List Nat)) (path url s : String) (d f body : List Nat)
    (hf : fs path = some f) (hs : hexDecode s = some d) (hne : d ≠ sha1Digest f)
    (hnet : net url = some (200, body)) :
    get_file fs net path url false (some s) = ⟨.ok body, true, true, some body⟩ := by
  unfold get_file fetch_step
  simp [hf, hs, hne, hnet]

/-- Witness for the amended C6. -/
theorem c6_refetch_overwrites_witness :
    get_file (fun _ => some [0]) (fun _ => some (200, [3])) "p" "u" false
      (some "0000000000000000000000000000000000000000") = ⟨.ok [3], true, true, some [3]⟩ :=
  c6_refetch_overwrites (fun _ => some [0]) (fun _ => some (200, [3])) "p" "u"
    "0000000000000000000000000000000000000000" (List.replicate 20 0) [0] [3]
    rfl (by decide) (by decide) rfl

/-! ## Claim C9: malformed expected hash -/

/-- Counterexample to C9: a call supplying the malformed hex hash "zz",
but with an unreadable local file, never reaches the hex decode — it
fetches and returns successfully instead of failing. -/
theorem c9_no_decode_counterexample :
    hexDecode "zz" = none ∧
    get_file (fun _ => none) (fun _ => some (200, [1])) "p" "u" false (some "zz") =
      ⟨.ok [1], true, true, some [1]⟩ :=
  ⟨by decide, by decide⟩

/-- C9 as amended: a malformed expected hash is a fatal error exactly on
the check-local path — when the redownload is not forced and the local
file is readable, `get_file` fails with the hex error before any fetch. -/
theorem c9_hex_error (fs : String → Option (List Nat)) (net : String → Option (Nat × List Nat))
    (path url s : String) (f : List Nat)
    (hf : fs path = some f) (hs : hexDecode s = none) :
    get_file fs net path url false (some s) = ⟨.error .hexError, false, false, none⟩ := by
  unfold get_file
  simp [hf, hs]

/-- Witness for the amended C9. -/
theorem c9_hex_error_witness :
    get_file (fun _ => some []) (fun _ => none) "p" "u" false (some "zz") =
      ⟨.error .hexError, false, false, none⟩ :=
  c9_hex_error (fun _ => some []) (fun _ => none) "p" "u" "zz" [] rfl (by decide)

/-! ## Claim C7: unparseable coordinate -/

/-- A permitted descriptor with an unparseable coordinate, carrying an
explicit-downloads table with no artifact and no classifiers. -/
def libNoFields : Library := ⟨"", none, none, none, none, some ⟨none, none⟩, none⟩

/-- Counterexample to C7: this descriptor's rules permit it (no rules) and
its coordinate fails to parse, yet `download_library` returns success with
no paths instead of a fatal error — with explicit downloads present but no
artifact and no applicable native, no path is ever derived. -/
theorem c7_no_error_counterexample :
    name_to_path libNoFields.name none = none ∧
    is_needed (os_arch "linux" "x86_64") libNoFields.rules = true ∧
    download_library "linux" "x86_64" (fun _ => none) (fun _ => none) "base" libNoFields =
      ⟨.ok [], [], []⟩ :=
  ⟨rfl, rfl, rfl⟩

/-- C7 as amended: a permitted descriptor whose coordinate fails to parse
is a fatal "cannot derive path" error whenever a path must be derived —
always under the derived-URL strategy, and under explicit downloads
whenever a primary artifact is present; (explicit downloads with no
primary artifact and no applicable native derive no path and succeed with
whatever the natives step yields instead). -/
theorem c7_parse_error (os arch : String) (net : String → Option (Nat × List Nat))
    (fs : String → Option (List Nat)) (basePath : String) (lib : Library)
    (hparse : name_to_path lib.name none = none)
    (hneed : is_needed (os_arch os arch) lib.rules = true)
    (hstrat : lib.downloads = none ∨ ∃ d, lib.downloads = some d ∧ d.artifact ≠ none) :
    (download_library os arch net fs basePath lib).result = .error .cantGetPath := by
  unfold download_library
  rw [hneed]
  simp only [if_true]
  rcases hstrat with h | ⟨d, hd, ha⟩
  · simp only [download_library_body, h]
    unfold strategy_b strategy_b_fetch
    by_cases hslash : endsWithSlash (match lib.url with
      | some u => u
      | none => LIBRARY_BASE_URL) = true <;> simp [hslash, hparse]
  · obtain ⟨artifact, hart⟩ := Option.ne_none_iff_exists'.mp ha
    simp only [download_library_body, hd, strategy_a, hart, hparse]

/-- Witness for the amended C7: an unparseable coordinate under the
derived-URL strategy is the path error. -/
theorem c7_parse_error_witness :
    (download_library "linux" "x86_64" (fun _ => none) (fun _ => none) "base"
        ⟨"", none, none, none, none, none, none⟩).result = .error .cantGetPath :=
  c7_parse_error "linux" "x86_64" (fun _ => none) (fun _ => none) "base"
    ⟨"", none, none, none, none, none, none⟩ rfl rfl (Or.inl rfl)

/-! ## Claim C8: the derived-URL strategy's single instruction -/

/-- C8: a permitted derived-URL descriptor with a parsing coordinate
issues exactly one `get_file` call: its URL is the base URL (override or
the default repository root) with the derived relative path appended
exactly when the base ends with a slash, its local path is the derived
path with no classifier override joined under the base directory, its
force-redownload flag is set exactly when the descriptor carries the
always-stale hint, and no expected SHA-1 is supplied. -/
theorem c8_derived_url (os arch : String) (net : String → Option (Nat × List Nat))
    (fs : String → Option (List Nat)) (basePath : String) (lib : Library) (rel : String)
    (hB : lib.downloads = none)
    (hneed : is_needed (os_arch os arch) lib.rules = true)
    (hparse : name_to_path lib.name none = some rel) :
    (download_library os arch net fs basePath lib).calls =
      [⟨basePath ++ "/" ++ rel,
        if endsWithSlash (lib.url.getD LIBRARY_BASE_URL)
        then lib.url.getD LIBRARY_BASE_URL ++ rel
        else lib.url.getD LIBRARY_BASE_URL,
        lib.hint == some LibraryHint.alwaysStale, none⟩] := by
  unfold download_library download_library_body
  rw [hneed]
  simp only [if_true]
  rw [hB]
  unfold strategy_b strategy_b_fetch
  have hurl : (match lib.url with
      | some u => u
      | none => LIBRARY_BASE_URL) = lib.url.getD LIBRARY_BASE_URL := by
    cases lib.url <;> rfl
  rw [hurl]
  by_cases hslash : endsWithSlash (lib.url.getD LIBRARY_BASE_URL) = true
  · simp only [hslash, if_true, hparse]
    cases hgf : (get_file fs net (pathJoin basePath rel)
        (lib.url.getD LIBRARY_BASE_URL ++ rel)
        (lib.hint == some LibraryHint.alwaysStale) none).result <;>
      simp [hgf, pathJoin]
  · simp only [hslash, if_false, hparse, Bool.not_eq_true] at *
    simp only [hslash, Bool.false_eq_true, if_false, hparse]
    cases hgf : (get_file fs net (pathJoin basePath rel) (lib.url.getD LIBRARY_BASE_URL)
        (lib.hint == some LibraryHint.alwaysStale) none).result <;>
      simp [hgf, pathJoin]

/-- Witness for C8: the default repository root ends with a slash, so the
derived path is appended; the descriptor has no hint, so the fetch is not
forced. -/
theorem c8_derived_url_witness :
    (download_library "linux" "x86_64" (fun _ => some (200, [])) (fun _ => none) "base"
        ⟨"a:b:c", none, none, none, none, none, none⟩).calls =
      [⟨"base" ++ "/" ++ "a/b/c/b-c.jar",
        if endsWithSlash ((none : Option String).getD LIBRARY_BASE_URL)
        then (none : Option String).getD LIBRARY_BASE_URL ++ "a/b/c/b-c.jar"
        else (none : Option String).getD LIBRARY_BASE_URL,
        (none : Option LibraryHint) == some LibraryHint.alwaysStale, none⟩] :=
  c8_derived_url "linux" "x86_64" (fun _ => some (200, [])) (fun _ => none) "base"
    ⟨"a:b:c", none, none, none, none, none, none⟩ "a/b/c/b-c.jar" rfl rfl (by decide)

/-! ## Claim C10: the native-step error does not undo the primary fetch -/

/-- A descriptor whose primary artifact is already validly cached (the
empty file with its true SHA-1) and whose natives entry applies but whose
classifiers map is absent. -/
def libNativeBroken : Library :=
  ⟨"a:b:c", none, none, some [("linux", "natives-linux")], none,
    some ⟨some ⟨"da39a3ee5e6b4b0d3255bfef95601890afd80709", 0, "http://primary"⟩, none⟩, none⟩

/-- Counterexample to C10: the primary artifact step succeeds as a cache
hit, the native-classifier step then fails, and `download_library` returns
the error having written NOTHING — the filesystem is not modified, against
the claim's "the filesystem is modified despite the overall error result".
-/
theorem c10_no_write_counterexample :
    download_library "linux" "x86_64" (fun _ => none) (fun _ => some []) "base"
        libNativeBroken =
      ⟨.error .cantGetClassifiers,
        [⟨"base/a/b/c/b-c.jar", "http://primary", false,
          some "da39a3ee5e6b4b0d3255bfef95601890afd80709"⟩],
        []⟩ := by
  decide

/-- C10 as amended: when the explicit-downloads strategy fetches a primary
artifact successfully and the native-classifier step then fails (absent
classifiers map, or missing entry), the error does not undo the primary
fetch — the primary `get_file` call was issued and whatever it wrote
persists in the outcome; the filesystem is modified exactly when that
fetch missed the cache and wrote. -/
theorem c10_error_keeps_primary (os arch : String) (net : String → Option (Nat × List Nat))
    (fs : String → Option (List Nat)) (basePath : String) (lib : Library)
    (downloads : LibraryDownloads) (artifact : Download) (rel native : String) (b : List Nat)
    (hD : lib.downloads = some downloads)
    (hA : downloads.artifact = some artifact)
    (hneed : is_needed (os_arch os arch) lib.rules = true)
    (hparse : name_to_path lib.name none = some rel)
    (hok : (get_file fs net (pathJoin basePath rel) artifact.url false
      (some artifact.sha1)).result = .ok b)
    (hnat : ∃ ns, lib.natives = some ns ∧ assocGet ns (os_arch os arch) = some native)
    (hfail : downloads.classifiers = none ∨
      ∃ cs, downloads.classifiers = some cs ∧ assocGet cs native = none) :
    ∃ e, download_library os arch net fs basePath lib =
      ⟨.error e,
        [⟨pathJoin basePath rel, artifact.url, false, some artifact.sha1⟩],
        writeList (pathJoin basePath rel)
          (get_file fs net (pathJoin basePath rel) artifact.url false
            (some artifact.sha1)).wrote⟩ := by
  obtain ⟨ns, hns, hlook⟩ := hnat
  unfold download_library
  rw [hneed]
  simp only [if_true]
  simp only [download_library_body, hD, strategy_a, hA, hparse, hok]
  simp only [natives_step, hns, hlook]
  rcases hfail with h | ⟨cs, hcs, hmiss⟩
  · simp only [h]
    exact ⟨.cantGetClassifiers, rfl⟩
  · simp only [hcs, hmiss]
    exact ⟨.cantGetNative, rfl⟩

/-- Witness for the amended C10: the primary fetch misses the cache, the
server answers 200 with `[5]`, the natives step fails, and the outcome
carries both the error and the persisted write of `[5]`. -/
theorem c10_error_keeps_primary_witness :
    ∃ e, download_library "linux" "x86_64" (fun _ => some (200, [5])) (fun _ => none) "base"
        libNativeBroken =
      ⟨.error e,
        [⟨pathJoin "base" "a/b/c/b-c.jar", "http://primary", false,
          some "da39a3ee5e6b4b0d3255bfef95601890afd80709"⟩],
        writeList (pathJoin "base" "a/b/c/b-c.jar")
          (get_file (fun _ => none) (fun _ => some (200, [5])) (pathJoin "base" "a/b/c/b-c.jar")
            "http://primary" false
            (some "da39a3ee5e6b4b0d3255bfef95601890afd80709")).wrote⟩ :=
  c10_error_keeps_primary "linux" "x86_64" (fun _ => some (200, [5])) (fun _ => none) "base"
    libNativeBroken
    ⟨some ⟨"da39a3ee5e6b4b0d3255bfef95601890afd80709", 0, "http://primary"⟩, none⟩
    ⟨"da39a3ee5e6b4b0d3255bfef95601890afd80709", 0, "http://primary"⟩
    "a/b/c/b-c.jar" "natives-linux" [5]
    rfl rfl rfl (by decide) (by decide) ⟨[("linux", "natives-linux")], rfl, rfl⟩ (Or.inl rfl)

/-! ## Claim C2: what the coordinate grammar accepts

`MatchesGrammar` states, in the spec's words, that a character list is a
full `group:artifact:version[:classifier][@extension]` word with each field
a nonempty run of characters excluding `:` and `@`.  The lemmas below
relate it to the unanchored search performed by `name_to_path`. -/

/-- A nonempty field of characters excluding `:` and `@`. -/
def FieldOk (l : List Char) : Prop := l ≠ [] ∧ ∀ c ∈ l, isNameChar c = true

/-- The characters contributed by an optional group with delimiter `d`. -/
def optSeg (d : Char) : Option (List Char) → List Char
  | none => []
  | some f => d :: f

/-- A full match of the grammar
`group:artifact:version[:classifier][@extension]`, stated as the spec words
it: a decomposition into nonempty delimiter-free fields. -/
def MatchesGrammar (s : List Char) : Prop :=
  ∃ g a v : List Char, ∃ c e : Option (List Char),
    FieldOk g ∧ FieldOk a ∧ FieldOk v ∧
    (∀ f, c = some f → FieldOk f) ∧ (∀ f, e = some f → FieldOk f) ∧
    s = g ++ ':' :: (a ++ ':' :: (v ++ (optSeg ':' c ++ optSeg '@' e)))

/-- Decidable full-string match: the pattern attempt at position zero
consumes the entire input. -/
def fullMatchL (l : List Char) : Bool :=
  match matchAt l with
  | some (_, []) => true
  | _ => false

/-- A run of satisfying characters followed by a failing character is
exactly what `takeWhile`/`dropWhile` split off. -/
theorem takeWhile_append_run (p : Char → Bool) (f : List Char) (d : Char) (rest : List Char)
    (hall : ∀ c ∈ f, p c = true) (hd : p d = false) :
    (f ++ d :: rest).takeWhile p = f ∧ (f ++ d :: rest).dropWhile p = d :: rest := by
  induction f with
  | nil => simp [List.takeWhile_cons, List.dropWhile_cons, hd]
  | cons x t ih =>
    have hx : p x = true := hall x (List.mem_cons_self x t)
    have ht := ih fun c hc => hall c (List.mem_cons_of_mem x hc)
    simp [List.takeWhile_cons, List.dropWhile_cons, hx, ht.1, ht.2]

/-- `takeWhile`/`dropWhile` on a list of satisfying characters. -/
theorem takeWhile_all (p : Char → Bool) (f : List Char) (hall : ∀ c ∈ f, p c = true) :
    f.takeWhile p = f ∧ f.dropWhile p = [] := by
  induction f with
  | nil => simp
  | cons x t ih =>
    have hx : p x = true := hall x (List.mem_cons_self x t)
    have ht := ih fun c hc => hall c (List.mem_cons_of_mem x hc)
    simp [List.takeWhile_cons, List.dropWhile_cons, hx, ht.1, ht.2]

/-- Soundness of `takeField`: a successful field is a nonempty
delimiter-free prefix, and the input splits as field plus leftover. -/
theorem takeField_sound (l f rest : List Char) (h : takeField l = some (f, rest)) :
    FieldOk f ∧ l = f ++ rest := by
  unfold takeField at h
  by_cases he : (l.takeWhile isNameChar).isEmpty
  · simp [he] at h
  · simp only [he, if_false, Bool.false_eq_true, Option.some.injEq, Prod.mk.injEq] at h
    obtain ⟨h1, h2⟩ := h
    subst h1
    subst h2
    refine ⟨⟨?_, ?_⟩, ?_⟩
    · intro hnil
      rw [hnil] at he
      exact he rfl
    · intro c hc
      exact List.mem_takeWhile_imp hc
    · exact (List.takeWhile_append_dropWhile isNameChar l).symm

/-- `takeField` on a field followed by a delimiter. -/
theorem takeField_run (f : List Char) (d : Char) (rest : List Char)
    (hne : f ≠ []) (hall : ∀ c ∈ f, isNameChar c = true) (hd : isNameChar d = false) :
    takeField (f ++ d :: rest) = some (f, d :: rest) := by
  have h := takeWhile_append_run isNameChar f d rest hall hd
  unfold takeField
  rw [h.1, h.2]
  simp [List.isEmpty_iff, hne]

/-- `takeField` on a bare field consumes it entirely. -/
theorem takeField_all (f : List Char) (hne : f ≠ []) (hall : ∀ c ∈ f, isNameChar c = true) :
    takeField f = some (f, []) := by
  have h := takeWhile_all isNameChar f hall
  unfold takeField
  rw [h.1, h.2]
  simp [List.isEmpty_iff, hne]

/-- `takeField` succeeds on anything beginning with a field character. -/
theorem takeField_isSome (f post : List Char) (hne : f ≠ [])
    (hall : ∀ c ∈ f, isNameChar c = true) : (takeField (f ++ post)).isSome := by
  cases f with
  | nil => exact absurd rfl hne
  | cons x t =>
    have hx : isNameChar x = true := hall x (List.mem_cons_self x t)
    unfold takeField
    simp [List.takeWhile_cons, hx]

/-- A failed optional group leaves its input untouched. -/
theorem matchOpt_none (d : Char) (l rest : List Char) (h : matchOpt d l = (none, rest)) :
    rest = l := by
  cases l with
  | nil => simpa [matchOpt] using h.symm
  | cons c t =>
    simp only [matchOpt] at h
    by_cases hc : c = d
    · subst hc
      rw [if_pos rfl] at h
      cases htf : takeField t with
      | none =>
        rw [htf] at h
        simp only [Prod.mk.injEq] at h
        exact h.2.symm
      | some pr => rw [htf] at h; simp at h
    · rw [if_neg hc] at h
      simp only [Prod.mk.injEq] at h
      exact h.2.symm

/-- Soundness of a successful optional group: the input was the delimiter,
a valid field, then the leftover. -/
theorem matchOpt_some (d : Char) (l f rest : List Char) (h : matchOpt d l = (some f, rest)) :
    FieldOk f ∧ l = d :: (f ++ rest) := by
  cases l with
  | nil => simp [matchOpt] at h
  | cons c t =>
    simp only [matchOpt] at h
    by_cases hc : c = d
    · subst hc
      rw [if_pos rfl] at h
      cases htf : takeField t with
      | none => rw [htf] at h; simp at h
      | some pr =>
        obtain ⟨f0, rest0⟩ := pr
        rw [htf] at h
        simp only [Prod.mk.injEq, Option.some.injEq] at h
        obtain ⟨rfl, rfl⟩ := h
        obtain ⟨hok, hsplit⟩ := takeField_sound t f0 rest0 htf
        exact ⟨hok, by rw [hsplit]⟩
    · rw [if_neg hc] at h
      simp at h

/-- Completeness of the optional group at a delimited field: the field is
consumed when the following leftover cannot extend it. -/
theorem matchOpt_complete (d : Char) (f rest : List Char)
    (hne : f ≠ []) (hall : ∀ c ∈ f, isNameChar c = true)
    (hrest : rest = [] ∨ ∃ r t, rest = r :: t ∧ isNameChar r = false) :
    matchOpt d (d :: (f ++ rest)) = (some f, rest) := by
  have htf : takeField (f ++ rest) = some (f, rest) := by
    rcases hrest with h | ⟨r, t, h, hr⟩
    · rw [h, List.append_nil]
      exact takeField_all f hne hall
    · rw [h]
      exact takeField_run f r t hne hall hr
  simp [matchOpt, htf]

/-- The optional group never fires without its delimiter. -/
theorem matchOpt_skip (d : Char) (l : List Char)
    (h : l = [] ∨ ∃ r t, l = r :: t ∧ r ≠ d) : matchOpt d l = (none, l) := by
  rcases h with h | ⟨r, t, h, hr⟩
  · rw [h]; rfl
  · rw [h]
    simp [matchOpt, hr]

/-- A grammar word is never empty (its group field is nonempty). -/
theorem grammar_ne_nil {mid : List Char} (h : MatchesGrammar mid) : mid ≠ [] := by
  obtain ⟨g, a, v, c, e, hg, _, _, _, _, rfl⟩ := h
  cases g with
  | nil => exact absurd rfl hg.1
  | cons x t => simp

/-- Soundness of one pattern attempt: a successful `matchAt` splits its
input into a full grammar word and the unconsumed leftover. -/
theorem matchAt_sound (l : List Char) (caps : LibCaps) (rest : List Char)
    (h : matchAt l = some (caps, rest)) :
    ∃ mid, l = mid ++ rest ∧ MatchesGrammar mid := by
  unfold matchAt at h
  split at h
  · simp at h
  rename_i g l1 htf
  obtain ⟨⟨hgne, hgall⟩, hgsplit⟩ := takeField_sound l g l1 htf
  split at h
  · simp at h
  rename_i c1 l2
  split at h
  case isFalse => simp at h
  rename_i hc1
  subst hc1
  split at h
  · simp at h
  rename_i a l3 htf2
  obtain ⟨⟨hane, haall⟩, hasplit⟩ := takeField_sound l2 a l3 htf2
  split at h
  · simp at h
  rename_i c2 l4
  split at h
  case isFalse => simp at h
  rename_i hc2
  subst hc2
  split at h
  · simp at h
  rename_i v l5 htf3
  obtain ⟨⟨hvne, hvall⟩, hvsplit⟩ := takeField_sound l4 v l5 htf3
  rcases hcl : matchOpt ':' l5 with ⟨cls, l6⟩
  rcases hext : matchOpt '@' l6 with ⟨ext, l7⟩
  simp only [hcl, hext, Option.some.injEq, Prod.mk.injEq] at h
  obtain ⟨hcaps, hrest⟩ := h
  subst hrest
  refine ⟨g ++ ':' :: (a ++ ':' :: (v ++ (optSeg ':' cls ++ optSeg '@' ext))), ?_, ?_⟩
  · have hl5 : l5 = optSeg ':' cls ++ l6 := by
      cases cls with
      | none =>
        have := matchOpt_none ':' l5 l6 hcl
        simp [optSeg, this]
      | some f =>
        have := matchOpt_some ':' l5 f l6 hcl
        simp [optSeg, this.2]
    have hl6 : l6 = optSeg '@' ext ++ l7 := by
      cases ext with
      | none =>
        have := matchOpt_none '@' l6 l7 hext
        simp [optSeg, this]
      | some f =>
        have := matchOpt_some '@' l6 f l7 hext
        simp [optSeg, this.2]
    rw [hgsplit, hasplit, hvsplit, hl5, hl6]
    simp [List.append_assoc]
  · refine ⟨g, a, v, cls, ext, ⟨hgne, hgall⟩, ⟨hane, haall⟩, ⟨hvne, hvall⟩, ?_, ?_, rfl⟩
    · intro f hf
      subst hf
      exact (matchOpt_some ':' l5 f l6 hcl).1
    · intro f hf
      subst hf
      exact (matchOpt_some '@' l6 f l7 hext).1

/-- Completeness of one pattern attempt: the pattern matches at the start
of any list that begins with a grammar word. -/
theorem matchAt_isSome (mid post : List Char) (hg : MatchesGrammar mid) :
    (matchAt (mid ++ post)).isSome = true := by
  obtain ⟨g, a, v, c, e, ⟨hgne, hgall⟩, ⟨hane, haall⟩, ⟨hvne, hvall⟩, hc, he, rfl⟩ := hg
  have hcolon : isNameChar ':' = false := by decide
  have heq : (g ++ ':' :: (a ++ ':' :: (v ++ (optSeg ':' c ++ optSeg '@' e)))) ++ post
      = g ++ ':' :: (a ++ ':' :: (v ++ (optSeg ':' c ++ (optSeg '@' e ++ post)))) := by
    simp [List.append_assoc]
  rw [heq]
  have h1 := takeField_run g ':' (a ++ ':' :: (v ++ (optSeg ':' c ++ (optSeg '@' e ++ post))))
    hgne hgall hcolon
  have h2 := takeField_run a ':' (v ++ (optSeg ':' c ++ (optSeg '@' e ++ post)))
    hane haall hcolon
  have h3 := takeField_isSome v (optSeg ':' c ++ (optSeg '@' e ++ post)) hvne hvall
  obtain ⟨⟨v', l5⟩, h3'⟩ := Option.isSome_iff_exists.mp h3
  simp [matchAt, h1, h2, h3']

/-- The pattern attempt on a bare grammar word consumes it entirely. -/
theorem matchAt_exact (mid : List Char) (hg : MatchesGrammar mid) :
    ∃ caps, matchAt mid = some (caps, []) := by
  obtain ⟨g, a, v, c, e, ⟨hgne, hgall⟩, ⟨hane, haall⟩, ⟨hvne, hvall⟩, hc, he, rfl⟩ := hg
  have hcolon : isNameChar ':' = false := by decide
  have hat : isNameChar '@' = false := by decide
  cases c with
  | none =>
    cases e with
    | none =>
      have h1 := takeField_run g ':' (a ++ ':' :: v) hgne hgall hcolon
      have h2 := takeField_run a ':' v hane haall hcolon
      have h3 := takeField_all v hvne hvall
      refine ⟨⟨String.mk g, String.mk a, String.mk v, none, none⟩, ?_⟩
      simp [matchAt, optSeg, h1, h2, h3, matchOpt]
    | some f2 =>
      obtain ⟨hf2ne, hf2all⟩ := he f2 rfl
      have h1 := takeField_run g ':' (a ++ ':' :: (v ++ '@' :: f2)) hgne hgall hcolon
      have h2 := takeField_run a ':' (v ++ '@' :: f2) hane haall hcolon
      have h3 := takeField_run v '@' f2 hvne hvall hat
      have h4 : matchOpt ':' ('@' :: f2) = (none, '@' :: f2) :=
        matchOpt_skip ':' ('@' :: f2) (Or.inr ⟨'@', f2, rfl, by decide⟩)
      have h5 : matchOpt '@' ('@' :: (f2 ++ [])) = (some f2, []) :=
        matchOpt_complete '@' f2 [] hf2ne hf2all (Or.inl rfl)
      rw [List.append_nil] at h5
      refine ⟨⟨String.mk g, String.mk a, String.mk v, none, some (String.mk f2)⟩, ?_⟩
      simp [matchAt, optSeg, h1, h2, h3, h4, h5]
  | some f1 =>
    obtain ⟨hf1ne, hf1all⟩ := hc f1 rfl
    cases e with
    | none =>
      have h1 := takeField_run g ':' (a ++ ':' :: (v ++ ':' :: f1)) hgne hgall hcolon
      have h2 := takeField_run a ':' (v ++ ':' :: f1) hane haall hcolon
      have h3 := takeField_run v ':' f1 hvne hvall hcolon
      have h4 : matchOpt ':' (':' :: (f1 ++ [])) = (some f1, []) :=
        matchOpt_complete ':' f1 [] hf1ne hf1all (Or.inl rfl)
      rw [List.append_nil] at h4
      have h5 : matchOpt '@' ([] : List Char) = (none, []) := rfl
      refine ⟨⟨String.mk g, String.mk a, String.mk v, some (String.mk f1), none⟩, ?_⟩
      simp [matchAt, optSeg, h1, h2, h3, h4, h5]
    | some f2 =>
      obtain ⟨hf2ne, hf2all⟩ := he f2 rfl
      have h1 := takeField_run g ':'
        (a ++ ':' :: (v ++ ':' :: (f1 ++ '@' :: f2))) hgne hgall hcolon
      have h2 := takeField_run a ':' (v ++ ':' :: (f1 ++ '@' :: f2)) hane haall hcolon
      have h3 := takeField_run v ':' (f1 ++ '@' :: f2) hvne hvall hcolon
      have h4 : matchOpt ':' (':' :: (f1 ++ '@' :: f2)) = (some f1, '@' :: f2) :=
        matchOpt_complete ':' f1 ('@' :: f2) hf1ne hf1all (Or.inr ⟨'@', f2, rfl, hat⟩)
      have h5 : matchOpt '@' ('@' :: (f2 ++ [])) = (some f2, []) :=
        matchOpt_complete '@' f2 [] hf2ne hf2all (Or.inl rfl)
      rw [List.append_nil] at h5
      refine ⟨⟨String.mk g, String.mk a, String.mk v, some (String.mk f1), some (String.mk f2)⟩, ?_⟩
      simp [matchAt, optSeg, h1, h2, h3, h4, h5]

/-- The unanchored search succeeds exactly on inputs containing a full
grammar word as a substring. -/
theorem findCaptures_isSome_iff (l : List Char) :
    (findCaptures l).isSome = true ↔
      ∃ pre mid post, l = pre ++ mid ++ post ∧ MatchesGrammar mid := by
  induction l with
  | nil =>
    simp only [findCaptures, Option.isSome_none, Bool.false_eq_true, false_iff]
    rintro ⟨pre, mid, post, heq, hg⟩
    obtain ⟨h1, -⟩ := List.append_eq_nil.mp heq.symm
    obtain ⟨-, h3⟩ := List.append_eq_nil.mp h1
    exact grammar_ne_nil hg h3
  | cons x t ih =>
    constructor
    · intro hs
      simp only [findCaptures] at hs
      split at hs
      · rename_i caps rest hm
        obtain ⟨mid, heq, hg⟩ := matchAt_sound (x :: t) caps rest hm
        exact ⟨[], mid, rest, by simpa using heq, hg⟩
      · obtain ⟨pre, mid, post, heq, hg⟩ := ih.mp hs
        exact ⟨x :: pre, mid, post, by simp [heq], hg⟩
    · rintro ⟨pre, mid, post, heq, hg⟩
      simp only [findCaptures]
      split
      · simp
      · rename_i hm
        apply ih.mpr
        cases pre with
        | nil =>
          exfalso
          have hsome := matchAt_isSome mid post hg
          simp only [List.nil_append] at heq
          rw [← heq] at hsome
          rw [hm] at hsome
          simp at hsome
        | cons y pre2 =>
          simp only [List.cons_append, List.cons.injEq] at heq
          exact ⟨pre2, mid, post, heq.2, hg⟩

/-- The decidable full-string matcher agrees with the grammar predicate. -/
theorem fullMatchL_iff (l : List Char) : fullMatchL l = true ↔ MatchesGrammar l := by
  constructor
  · intro h
    unfold fullMatchL at h
    split at h
    · rename_i caps hm
      obtain ⟨mid, hsplit, hg⟩ := matchAt_sound l caps [] hm
      rw [List.append_nil] at hsplit
      rwa [hsplit]
    · simp at h
  · intro hg
    obtain ⟨caps, hm⟩ := matchAt_exact l hg
    simp [fullMatchL, hm]

/-- `name_to_path` succeeds exactly when the capture search succeeds. -/
theorem name_to_path_isSome (s : String) (cls : Option String) :
    (name_to_path s cls).isSome = (findCaptures s.data).isSome := by
  unfold name_to_path
  cases h : findCaptures s.data <;> simp [h]

/-- Counterexample to C2: `a:b:c:d:e` does not fully match the grammar
`group:artifact:version[:classifier][@extension]`, yet `name_to_path`
produces a result — the regex search is unanchored, so the trailing `:e`
is silently ignored. -/
theorem c2_whole_string_counterexample :
    name_to_path "a:b:c:d:e" none = some "a/b/c/b-c-d.jar" ∧
    ¬ MatchesGrammar "a:b:c:d:e".data := by
  refine ⟨by decide, fun hg => ?_⟩
  exact absurd ((fullMatchL_iff "a:b:c:d:e".data).mpr hg) (by decide)

/-- C2 as amended: for every input string, `name_to_path` either succeeds
— exactly when some substring of the input fully matches the grammar
`group:artifact:version[:classifier][@extension]`, surrounding text being
ignored — or fails, when no substring matches; a full match of the whole
string is sufficient but not necessary. -/
theorem c2_substring_semantics (s : String) (classifier : Option String) :
    (name_to_path s classifier).isSome = true ↔
      ∃ pre mid post, s.data = pre ++ mid ++ post ∧ MatchesGrammar mid := by
  rw [name_to_path_isSome]
  exact findCaptures_isSome_iff s.data

end UML
